import Mathlib

/-!
Shallow embedding of the `HttpClient` class from `src/http/HttpClient.ts`
(a knockout single-page-app starter). The client issues one logical HTTP
request: it resolves the path against a base URL (`buildUrl`), merges
per-call options over defaults, performs the transport call with a timeout
signal, classifies failures (`shouldRetry`), retries with a constant delay
(`executeRequestWithRetries`), decodes 2xx bodies by content type, and
exposes a `loading` observable toggled around the whole call (`request`).

The transport (platform `fetch`) and the platform JSON parser are
collaborators: each attempt's transport outcome is an oracle input
(`FetchOutcome`, indexed by attempt number), and JSON parsing is a
parameter `jsonParse : String → Except String JsVal`.  Observable actions
(setting the loading flag, issuing a fetch with given arguments, sleeping
before a retry) are recorded in a trace of `TraceEvent`s.
-/

set_option autoImplicit false

namespace HttpModel

/-- Char-list test: does `s` start with `pre`? Models JS `String.startsWith`. -/
def listStarts : List Char → List Char → Bool
  | _, [] => true
  | [], _ :: _ => false
  | c :: cs, d :: ds => c = d && listStarts cs ds

/-- Char-list test: does `s` contain `needle` as a contiguous substring?
Models JS `String.includes`. -/
def listHasSub : List Char → List Char → Bool
  | [], needle => listStarts [] needle
  | c :: rest, needle => listStarts (c :: rest) needle || listHasSub rest needle

/-- Does the string end with a `'/'`? Models `baseUrl.endsWith('/')`. -/
def endsWithSlash (s : String) : Bool := s.data.getLast? = some '/'

/-- Does the string start with a `'/'`? Models `path.startsWith('/')`. -/
def startsWithSlash (s : String) : Bool :=
  match s.data with
  | '/' :: _ => true
  | _ => false

/-- Models `path.startsWith('http://') || path.startsWith('https://')`. -/
def isAbsoluteUrl (s : String) : Bool :=
  listStarts s.data "http://".data || listStarts s.data "https://".data

/-- Models `HttpClient.buildUrl`: an absolute path is returned verbatim;
otherwise the base URL loses a trailing slash (`baseUrl.slice(0, -1)`),
the path gains a leading slash when it lacks one, and the two are
concatenated. -/
def buildUrl (baseUrl path : String) : String :=
  if isAbsoluteUrl path then path
  else
    let b := if endsWithSlash baseUrl then String.mk baseUrl.data.dropLast else baseUrl
    let p := if startsWithSlash path then path else "/" ++ path
    b ++ p

/-- Models the TS interface `HttpRequestOptions`: every field is optional
(`none` = key absent from the object). Headers are an association list,
the order being the object's insertion order. -/
structure HttpRequestOptions where
  headers : Option (List (String × String))
  timeout : Option Nat
  retries : Option Nat
  retryDelay : Option Nat
deriving DecidableEq

/-- The options object `{}`. -/
def emptyOptions : HttpRequestOptions := ⟨none, none, none, none⟩

/-- JS `a ?? b` on object presence: the left value wins when the key is
present. Used to model object spread field-by-field. -/
def optOr {α : Type} : Option α → Option α → Option α
  | some x, _ => some x
  | none, y => y

/-- Models the object spread `{ ...a, ...b }` on `HttpRequestOptions`:
fields present in `b` override those of `a` wholesale. -/
def spreadOptions (a b : HttpRequestOptions) : HttpRequestOptions :=
  ⟨optOr b.headers a.headers, optOr b.timeout a.timeout,
   optOr b.retries a.retries, optOr b.retryDelay a.retryDelay⟩

/-- Write key `k` to value `v` in an association list with JS-object
semantics: an existing key keeps its position and changes its value, a
new key is appended. -/
def setKey : List (String × String) → String → String → List (String × String)
  | [], k, v => [(k, v)]
  | p :: t, k, v => if p.1 = k then (k, v) :: t else p :: setKey t k v

/-- Models the object spread `{ ...base, ...over }` on header records:
every key of `over` is written into `base` in order. -/
def spreadInto (base over : List (String × String)) : List (String × String) :=
  over.foldl (fun acc p => setKey acc p.1 p.2) base

/-- Key lookup in a header record (first entry wins; a JS object built by
`setKey`/`spreadInto` from unique-key records has unique keys). -/
def getHeader (l : List (String × String)) (k : String) : Option String :=
  (l.find? (fun p => p.1 = k)).map (fun p => p.2)

/-- A JS value, as far as the client inspects one: the scalar JSON
values. Enough to model `data ? JSON.stringify(data) : undefined` and the
result of `response.json()`. -/
inductive JsVal where
  | vNull
  | vBool (b : Bool)
  | vNum (n : Int)
  | vStr (s : String)
deriving DecidableEq

/-- JS truthiness of a value: `false`, `0`, `""` and `null` are falsy. -/
def jsTruthy : JsVal → Bool
  | .vNull => false
  | .vBool b => b
  | .vNum n => n != 0
  | .vStr s => s != ""

/-- Models `JSON.stringify` on the scalar values. -/
def jsonStringify : JsVal → String
  | .vNull => "null"
  | .vBool true => "true"
  | .vBool false => "false"
  | .vNum n => toString n
  | .vStr s => "\"" ++ s ++ "\""

/-- Models JS `timeout || 30000`: `undefined` and `0` both fall back. -/
def jsOrDefault (o : Option Nat) (d : Nat) : Nat :=
  match o with
  | some t => if t = 0 then d else t
  | none => d

/-- Models the `HttpError` class: a message and a status (`0` = no HTTP
status, i.e. a network/timeout/decode failure). The `response` reference
is not modelled. -/
structure HttpError where
  message : String
  status : Nat
deriving DecidableEq

/-- A value thrown to the caller: either an `HttpError` (`instanceof
HttpError` true) or a raw non-`HttpError` exception carrying a message.
The code's catch clause only ever rethrows the former; the latter exists
so that claims about unwrapped exceptions are statable. -/
inductive ThrownError where
  | httpEx (e : HttpError)
  | rawEx (msg : String)
deriving DecidableEq

/-- Models `Response.ok`: status in `[200, 300)`. -/
def statusOk (status : Nat) : Bool := 200 ≤ status && status < 300

/-- Models `HttpClient.shouldRetry`: retry on `HttpError`s with status
`0` or in `[500, 600)`; any non-`HttpError` value is not retried. -/
def shouldRetry : ThrownError → Bool
  | .httpEx e => e.status == 0 || (500 ≤ e.status && e.status < 600)
  | .rawEx _ => false

/-- The decoded body of a successful response: a parsed JSON value
(`response.json()`), a text (`response.text()`, the raw body), or an
opaque blob (`response.blob()`, the raw bytes kept as given). -/
inductive DecodedData where
  | jsonData (v : JsVal)
  | textData (s : String)
  | blobData (raw : String)
deriving DecidableEq

/-- Models the `HttpResponse<T>` record returned to the caller. -/
structure HttpResponse where
  data : DecodedData
  status : Nat
  headers : List (String × String)
  ok : Bool
deriving DecidableEq

/-- The transport oracle for one attempt, i.e. what `fetch` does:
a settled response (status, headers, raw body), an abort by the timeout
signal (`DOMException` named `AbortError`), or a thrown transport error
(`some m` = an `Error` with message `m`, `none` = a non-`Error` value). -/
inductive FetchOutcome where
  | resp (status : Nat) (headers : List (String × String)) (body : String)
  | aborted
  | failed (msg : Option String)
deriving DecidableEq

/-- The state of an `HttpClient` instance after its constructor ran:
the base URL and the merged default options. -/
structure HttpClient where
  baseUrl : String
  defaultOptions : HttpRequestOptions
deriving DecidableEq

/-- The hard-coded option defaults of the `HttpClient` constructor. -/
def hardcodedDefaults : HttpRequestOptions :=
  ⟨some [("Content-Type", "application/json"), ("Accept", "application/json")],
   some 30000, some 1, some 1000⟩

/-- Models `new HttpClient(baseUrl, defaultOptions)`: the stored defaults
are `{ ...hardcoded, ...defaultOptions }` (with `{}` when the second
argument is omitted). -/
def mkClient (baseUrl : String) (defaults : Option HttpRequestOptions) : HttpClient :=
  ⟨baseUrl, spreadOptions hardcodedDefaults (defaults.getD emptyOptions)⟩

/-- One `fetch` invocation as observed at the transport boundary: the
arguments the client passed. -/
structure AttemptCall where
  method : String
  url : String
  headers : List (String × String)
  body : Option String
  timeoutMs : Nat
deriving DecidableEq

/-- An observable action of the client: setting the `isLoading`
observable, issuing a transport attempt, or sleeping before a retry. -/
inductive TraceEvent where
  | loadingSet (b : Bool)
  | attemptEv (a : AttemptCall)
  | delayEv (ms : Nat)
deriving DecidableEq

/-- The catch clause of `executeRequest`: an `HttpError` is rethrown;
an `AbortError` becomes `HttpError('Request timeout', 0)`; any other
`Error` becomes `HttpError(error.message, 0)`; a non-`Error` value
becomes `HttpError('Unknown error', 0)`. -/
inductive CaughtError where
  | cHttp (e : HttpError)
  | cAbort
  | cErrMsg (m : String)
  | cNonError
deriving DecidableEq

/-- The translation performed by the catch clause of `executeRequest`. -/
def catchClause : CaughtError → ThrownError
  | .cHttp e => .httpEx e
  | .cAbort => .httpEx ⟨"Request timeout", 0⟩
  | .cErrMsg m => .httpEx ⟨m, 0⟩
  | .cNonError => .httpEx ⟨"Unknown error", 0⟩

/-- The content-type dispatch of `executeRequest`:
`contentType?.includes('application/json')` selects the JSON decoder,
otherwise `contentType?.includes('text/')` selects the text decoder,
otherwise (also for an absent header) the blob decoder. -/
inductive DecodeKind where
  | jsonKind
  | textKind
  | blobKind
deriving DecidableEq

/-- Which decoder `executeRequest` picks for a declared content type
(`none` = the response carries no `content-type` header). -/
def decodeDispatch (ct : Option String) : DecodeKind :=
  if (match ct with
      | some t => listHasSub t.data "application/json".data
      | none => false) then .jsonKind
  else if (match ct with
      | some t => listHasSub t.data "text/".data
      | none => false) then .textKind
  else .blobKind

/-- The body of the `try` block of `executeRequest` once `fetch` has
settled with a response: throw `HttpError` on a non-ok status, otherwise
decode per content type; a JSON parse failure is the parser's thrown
`Error` (a `SyntaxError` with a message). -/
def handleResponse (status : Nat) (respHeaders : List (String × String))
    (body : String) (jsonParse : String → Except String JsVal) :
    Except CaughtError HttpResponse :=
  if !statusOk status then
    .error (.cHttp ⟨s!"Request failed with status {status}", status⟩)
  else
    match decodeDispatch (getHeader respHeaders "content-type") with
    | .jsonKind =>
        match jsonParse body with
        | .ok v => .ok ⟨.jsonData v, status, respHeaders, statusOk status⟩
        | .error m => .error (.cErrMsg m)
    | .textKind => .ok ⟨.textData body, status, respHeaders, statusOk status⟩
    | .blobKind => .ok ⟨.blobData body, status, respHeaders, statusOk status⟩

/-- The arguments `executeRequest` passes to `fetch` for one attempt:
the full URL from `buildUrl`, the per-call headers spread over the
default headers, the body from `data ? JSON.stringify(data) : undefined`,
and the timeout from `timeout || 30000`. -/
def attemptCallOf (client : HttpClient) (method url : String)
    (data : Option JsVal) (options : Option HttpRequestOptions) : AttemptCall :=
  let fullUrl := buildUrl client.baseUrl url
  let headers := (options.getD emptyOptions).headers
  let timeout := (options.getD emptyOptions).timeout
  let sentHeaders :=
    spreadInto (client.defaultOptions.headers.getD []) (headers.getD [])
  let sentBody : Option String :=
    match data with
    | some v => if jsTruthy v then some (jsonStringify v) else none
    | none => none
  ⟨method, fullUrl, sentHeaders, sentBody, jsOrDefault timeout 30000⟩

/-- Models `HttpClient.executeRequest` for one attempt: issue the
transport call with the arguments of `attemptCallOf` (the transport's
behaviour is the oracle `fetchOutcome`), handle the settled response, and
translate every thrown value through the catch clause. Returns the
observed `fetch` arguments together with the settled result. -/
def executeRequest (client : HttpClient) (method url : String)
    (data : Option JsVal) (options : Option HttpRequestOptions)
    (fetchOutcome : FetchOutcome)
    (jsonParse : String → Except String JsVal) :
    AttemptCall × Except ThrownError HttpResponse :=
  let call : AttemptCall := attemptCallOf client method url data options
  let inner : Except CaughtError HttpResponse :=
    match fetchOutcome with
    | .resp status respHeaders body => handleResponse status respHeaders body jsonParse
    | .aborted => .error .cAbort
    | .failed (some m) => .error (.cErrMsg m)
    | .failed none => .error .cNonError
  (call, inner.mapError catchClause)

/-- Models `HttpClient.executeRequestWithRetries`: attempt, and on a
failure that `shouldRetry` accepts while `retriesLeft > 0`, wait
`retryDelay` and re-attempt from scratch with `retriesLeft - 1`. The
transport oracle is indexed by the attempt number `idx`. Returns the
event trace of the whole loop with the final settled result. -/
def executeRequestWithRetries (client : HttpClient)
    (transport : Nat → FetchOutcome)
    (jsonParse : String → Except String JsVal)
    (idx : Nat) (method url : String) (data : Option JsVal)
    (options : Option HttpRequestOptions) :
    Nat → Nat → List TraceEvent × Except ThrownError HttpResponse
  | retriesLeft, retryDelay =>
    let r := executeRequest client method url data options (transport idx) jsonParse
    match r.2 with
    | .ok resp => ([.attemptEv r.1], .ok resp)
    | .error e =>
      match retriesLeft with
      | 0 => ([.attemptEv r.1], .error e)
      | m + 1 =>
        if !shouldRetry e then ([.attemptEv r.1], .error e)
        else
          let rest := executeRequestWithRetries client transport jsonParse
            (idx + 1) method url data options m retryDelay
          (.attemptEv r.1 :: .delayEv retryDelay :: rest.1, rest.2)

/-- Models `HttpClient.request` (the single entry point of `get`, `post`,
`put`, `patch`, `delete`): merge options over defaults, read `retries`
and `retryDelay` with destructuring defaults, set `isLoading` true, run
the retry loop, and set `isLoading` false in the `finally` block. -/
def request (client : HttpClient) (transport : Nat → FetchOutcome)
    (jsonParse : String → Except String JsVal)
    (method url : String) (data : Option JsVal)
    (options : Option HttpRequestOptions) :
    List TraceEvent × Except ThrownError HttpResponse :=
  let mergedOptions :=
    spreadOptions client.defaultOptions (options.getD emptyOptions)
  let retries := mergedOptions.retries.getD 1
  let retryDelay := mergedOptions.retryDelay.getD 1000
  let inner := executeRequestWithRetries client transport jsonParse
    0 method url data (some mergedOptions) retries retryDelay
  (.loadingSet true :: inner.1 ++ [.loadingSet false], inner.2)

/-- Number of transport attempts recorded in a trace. -/
def countAttempts (es : List TraceEvent) : Nat :=
  es.countP (fun e => match e with | .attemptEv _ => true | _ => false)

/-- The transport attempts recorded in a trace, in order. -/
def attemptsOf : List TraceEvent → List AttemptCall
  | [] => []
  | .attemptEv a :: rest => a :: attemptsOf rest
  | _ :: rest => attemptsOf rest

/-- Does the trace record a write to the loading observable? -/
def isLoadingEvent : TraceEvent → Bool
  | .loadingSet _ => true
  | _ => false

theorem strDataAppend (a b : String) : (a ++ b).data = a.data ++ b.data := by
  cases a; cases b; rfl

theorem strExt {a b : String} (h : a.data = b.data) : a = b := by
  cases a; cases b; exact congrArg String.mk h

theorem endsWithSlash_concat (b : String) : endsWithSlash (b ++ "/") = true := by
  simp [endsWithSlash, strDataAppend]

theorem dropLast_concat_slash (b : String) :
    String.mk (b ++ "/").data.dropLast = b := by
  apply strExt
  simp [strDataAppend]

theorem startsWithSlash_concat (p : String) : startsWithSlash ("/" ++ p) = true := by
  have h : ("/" ++ p).data = '/' :: p.data := by simp [strDataAppend]
  simp [startsWithSlash, h]

theorem isAbsoluteUrl_slash (p : String) : isAbsoluteUrl ("/" ++ p) = false := by
  have h : ("/" ++ p).data = '/' :: p.data := by simp [strDataAppend]
  simp [isAbsoluteUrl, h, listStarts]

/-- C5: joining a base and a relative path inserts exactly one slash in
all four leading/trailing-slash combinations, an absolute path is used
verbatim, and the three concrete examples all give
`https://api.example.com/users/1`. -/
theorem C5_buildUrl_one_slash (b p : String)
    (hb : endsWithSlash b = false)
    (hp : startsWithSlash p = false)
    (ha : isAbsoluteUrl p = false) :
    (buildUrl b p = b ++ "/" ++ p ∧
     buildUrl (b ++ "/") p = b ++ "/" ++ p ∧
     buildUrl b ("/" ++ p) = b ++ "/" ++ p ∧
     buildUrl (b ++ "/") ("/" ++ p) = b ++ "/" ++ p) ∧
    (∀ base q : String, isAbsoluteUrl q = true → buildUrl base q = q) ∧
    (buildUrl "https://api.example.com/" "/users/1" = "https://api.example.com/users/1" ∧
     buildUrl "https://api.example.com" "users/1" = "https://api.example.com/users/1" ∧
     buildUrl "https://api.example.com/" "users/1" = "https://api.example.com/users/1") := by
  refine ⟨⟨?_, ?_, ?_, ?_⟩, ?_, by decide, by decide, by decide⟩
  · simp only [buildUrl, ha, hb, hp]
    apply strExt
    simp [strDataAppend]
  · simp only [buildUrl, ha, hp, endsWithSlash_concat, dropLast_concat_slash]
    apply strExt
    simp [strDataAppend]
  · simp only [buildUrl, isAbsoluteUrl_slash, hb, startsWithSlash_concat]
    apply strExt
    simp [strDataAppend]
  · simp only [buildUrl, isAbsoluteUrl_slash, startsWithSlash_concat,
      endsWithSlash_concat, dropLast_concat_slash]
    apply strExt
    simp [strDataAppend]
  · intro base q hq
    simp [buildUrl, hq]

/-- Witness for C5 at `b = "https://api.example.com"`, `p = "users/1"`. -/
theorem C5_buildUrl_one_slash_witness :
    buildUrl ("https://api.example.com" ++ "/") "users/1"
      = "https://api.example.com" ++ "/" ++ "users/1" :=
  (C5_buildUrl_one_slash "https://api.example.com" "users/1"
    (by decide) (by decide) (by decide)).1.2.1

/-- A client with the repository's demo base URL and no default
overrides, used to instantiate witnesses. -/
def demoClient : HttpClient := mkClient "https://api.example.com" none

/-- A transport that answers every attempt with a bare 500 response. -/
def transport500 : Nat → FetchOutcome := fun _ => .resp 500 [] ""

/-- A transport that answers every attempt with a bare 404 response. -/
def transport404 : Nat → FetchOutcome := fun _ => .resp 404 [] ""

/-- A JSON parser oracle that rejects every body. -/
def noJson : String → Except String JsVal := fun _ => .error "Unexpected token"

theorem attemptsOf_append (a b : List TraceEvent) :
    attemptsOf (a ++ b) = attemptsOf a ++ attemptsOf b := by
  induction a with
  | nil => rfl
  | cons e t ih => cases e <;> simp [attemptsOf, ih]

theorem countAttempts_eq_length (es : List TraceEvent) :
    countAttempts es = (attemptsOf es).length := by
  induction es with
  | nil => rfl
  | cons e t ih =>
    cases e <;> simp [countAttempts, attemptsOf, List.countP_cons] at * <;> omega

theorem executeRequest_call (client : HttpClient) (method url : String)
    (data : Option JsVal) (options : Option HttpRequestOptions)
    (fo : FetchOutcome) (jsonParse : String → Except String JsVal) :
    (executeRequest client method url data options fo jsonParse).1
      = attemptCallOf client method url data options := rfl

theorem executeRequest_500 (client : HttpClient) (method url : String)
    (data : Option JsVal) (options : Option HttpRequestOptions)
    (hs : List (String × String)) (bd : String)
    (jsonParse : String → Except String JsVal) :
    (executeRequest client method url data options (.resp 500 hs bd) jsonParse).2
      = .error (.httpEx ⟨"Request failed with status 500", 500⟩) := rfl

/-- Retry loop under a transport whose every attempt fails with one fixed
retryable error: the budget is consumed completely, every attempt uses
the same call arguments, and the last failure is propagated. -/
theorem executeRequestWithRetries_all_fail (client : HttpClient)
    (transport : Nat → FetchOutcome) (jsonParse : String → Except String JsVal)
    (method url : String) (data : Option JsVal)
    (options : Option HttpRequestOptions) (e : ThrownError)
    (he : ∀ i, (executeRequest client method url data options (transport i) jsonParse).2
      = .error e)
    (hr : shouldRetry e = true) :
    ∀ k idx rd,
      (executeRequestWithRetries client transport jsonParse idx method url data
          options k rd).2 = .error e ∧
      attemptsOf (executeRequestWithRetries client transport jsonParse idx method
          url data options k rd).1
        = List.replicate (k + 1) (attemptCallOf client method url data options) := by
  intro k
  induction k with
  | zero =>
    intro idx rd
    rw [executeRequestWithRetries]
    simp [he idx, executeRequest_call, attemptsOf]
  | succ m ih =>
    intro idx rd
    have h1 := (ih (idx + 1) rd).1
    have h2 := (ih (idx + 1) rd).2
    rw [executeRequestWithRetries]
    simp [he idx, hr, executeRequest_call, attemptsOf, h1, h2,
      List.replicate_succ]

/-- C1: with merged retry budget `n` and a transport failing every
attempt with status 500, `request` performs exactly `n + 1` attempts, all
with the same merged call arguments, and propagates the final failure
with status 500. -/
theorem C1_exhausts_budget_with_same_options (client : HttpClient)
    (transport : Nat → FetchOutcome) (jsonParse : String → Except String JsVal)
    (method url : String) (data : Option JsVal)
    (options : Option HttpRequestOptions) (n : Nat)
    (hn : (spreadOptions client.defaultOptions (options.getD emptyOptions)).retries.getD 1
      = n)
    (ht : ∀ i, ∃ hs bd, transport i = FetchOutcome.resp 500 hs bd) :
    countAttempts (request client transport jsonParse method url data options).1
      = n + 1 ∧
    attemptsOf (request client transport jsonParse method url data options).1
      = List.replicate (n + 1)
          (attemptCallOf client method url data
            (some (spreadOptions client.defaultOptions (options.getD emptyOptions)))) ∧
    (request client transport jsonParse method url data options).2
      = .error (.httpEx ⟨"Request failed with status 500", 500⟩) := by
  have he : ∀ i, (executeRequest client method url data
      (some (spreadOptions client.defaultOptions (options.getD emptyOptions)))
      (transport i) jsonParse).2
      = .error (.httpEx ⟨"Request failed with status 500", 500⟩) := by
    intro i
    obtain ⟨hs, bd, hi⟩ := ht i
    rw [hi]
    exact executeRequest_500 _ _ _ _ _ _ _ _
  subst hn
  have hmain := executeRequestWithRetries_all_fail client transport jsonParse
    method url data
    (some (spreadOptions client.defaultOptions (options.getD emptyOptions)))
    (.httpEx ⟨"Request failed with status 500", 500⟩) he (by rfl)
    ((spreadOptions client.defaultOptions (options.getD emptyOptions)).retries.getD 1)
    0
    ((spreadOptions client.defaultOptions (options.getD emptyOptions)).retryDelay.getD 1000)
  refine ⟨?_, ?_, ?_⟩
  · rw [countAttempts_eq_length]
    simp [request, attemptsOf, attemptsOf_append, hmain.2]
  · simp [request, attemptsOf, attemptsOf_append, hmain.2]
  · simp [request, hmain.1]

/-- Witness for C1: budget 2 against the always-500 transport gives 3
identical attempts and the 500 failure. -/
theorem C1_exhausts_budget_with_same_options_witness :
    countAttempts (request demoClient transport500 noJson "GET" "/x" none
        (some ⟨none, none, some 2, none⟩)).1 = 2 + 1 ∧
    attemptsOf (request demoClient transport500 noJson "GET" "/x" none
        (some ⟨none, none, some 2, none⟩)).1
      = List.replicate (2 + 1)
          (attemptCallOf demoClient "GET" "/x" none
            (some (spreadOptions demoClient.defaultOptions
              ((some (⟨none, none, some 2, none⟩ : HttpRequestOptions)).getD emptyOptions)))) ∧
    (request demoClient transport500 noJson "GET" "/x" none
        (some ⟨none, none, some 2, none⟩)).2
      = .error (.httpEx ⟨"Request failed with status 500", 500⟩) :=
  C1_exhausts_budget_with_same_options demoClient transport500 noJson "GET" "/x"
    none (some ⟨none, none, some 2, none⟩) 2 (by rfl)
    (fun i => ⟨[], "", rfl⟩)

theorem mapError_catchClause_httpEx (x : Except CaughtError HttpResponse)
    (e : ThrownError) (h : x.mapError catchClause = .error e) :
    ∃ he, e = ThrownError.httpEx he := by
  cases x with
  | ok r => simp [Except.mapError] at h
  | error c =>
    simp [Except.mapError] at h
    cases c <;> exact ⟨_, h.symm⟩

/-- Every failure `executeRequest` raises went through the catch clause,
hence is an `HttpError`: the raw branch of `ThrownError` never escapes. -/
theorem executeRequest_error_httpEx (client : HttpClient) (method url : String)
    (data : Option JsVal) (options : Option HttpRequestOptions)
    (fo : FetchOutcome) (jsonParse : String → Except String JsVal)
    (e : ThrownError)
    (h : (executeRequest client method url data options fo jsonParse).2 = .error e) :
    ∃ he, e = ThrownError.httpEx he :=
  mapError_catchClause_httpEx _ e h

/-- Every retry-loop trace records at least one transport attempt. -/
theorem countAttempts_pos (client : HttpClient) (transport : Nat → FetchOutcome)
    (jsonParse : String → Except String JsVal) (idx : Nat) (method url : String)
    (data : Option JsVal) (options : Option HttpRequestOptions) (k rd : Nat) :
    1 ≤ countAttempts (executeRequestWithRetries client transport jsonParse idx
      method url data options k rd).1 := by
  rw [executeRequestWithRetries]
  rcases hres : (executeRequest client method url data options (transport idx)
      jsonParse).2 with e | r
  · simp only [hres]
    cases k with
    | zero => simp [countAttempts, List.countP_cons]
    | succ m =>
      by_cases hr : shouldRetry e = true
      · simp [hr, countAttempts, List.countP_cons]
      · simp only [Bool.not_eq_true] at hr
        simp [hr, countAttempts, List.countP_cons]
  · simp [hres, countAttempts, List.countP_cons]

/-- A first-attempt failure accepted by `shouldRetry` leads to a second
attempt whenever the budget is positive. -/
theorem retry_occurs (client : HttpClient) (transport : Nat → FetchOutcome)
    (jsonParse : String → Except String JsVal) (method url : String)
    (data : Option JsVal) (options : Option HttpRequestOptions)
    (e : ThrownError) (n rd : Nat)
    (h0 : (executeRequest client method url data options (transport 0) jsonParse).2
      = .error e)
    (hsr : shouldRetry e = true) (hn : 0 < n) :
    2 ≤ countAttempts (executeRequestWithRetries client transport jsonParse 0
      method url data options n rd).1 := by
  rcases Nat.exists_eq_add_of_lt hn with ⟨m, hm⟩
  subst hm
  rw [executeRequestWithRetries]
  simp only [h0, hsr, Nat.zero_add]
  simp only [Bool.not_true, Bool.false_eq_true, if_false]
  have hpos := countAttempts_pos client transport jsonParse 1 method url data
    options m rd
  simp only [countAttempts, List.countP_cons] at hpos ⊢
  norm_num
  omega

/-- C2: an attempt failure is retried iff it is an `HttpError` with
status `0` or in `[500, 600)` and the budget is positive; otherwise the
loop stops after exactly one attempt and propagates that failure. -/
theorem C2_retry_iff_retryable_and_budget (client : HttpClient)
    (transport : Nat → FetchOutcome) (jsonParse : String → Except String JsVal)
    (method url : String) (data : Option JsVal)
    (options : Option HttpRequestOptions) (he : HttpError) (n rd : Nat)
    (h0 : (executeRequest client method url data options (transport 0) jsonParse).2
      = .error (.httpEx he)) :
    (¬(he.status = 0 ∨ (500 ≤ he.status ∧ he.status < 600)) ∨ n = 0 →
      executeRequestWithRetries client transport jsonParse 0 method url data
          options n rd
        = ([.attemptEv (attemptCallOf client method url data options)],
           .error (.httpEx he))) ∧
    ((he.status = 0 ∨ (500 ≤ he.status ∧ he.status < 600)) → 0 < n →
      2 ≤ countAttempts (executeRequestWithRetries client transport jsonParse 0
        method url data options n rd).1) := by
  constructor
  · intro hstop
    rw [executeRequestWithRetries]
    rcases hstop with hnr | hz
    · have hsr : shouldRetry (.httpEx he) = false := by
        simp only [shouldRetry]
        by_contra hcon
        simp only [Bool.not_eq_false, Bool.or_eq_true, beq_iff_eq,
          Bool.and_eq_true, decide_eq_true_eq] at hcon
        exact hnr hcon
      cases n with
      | zero => simp [h0, executeRequest_call]
      | succ m => simp [h0, hsr, executeRequest_call]
    · subst hz
      simp [h0, executeRequest_call]
  · intro hretry hn
    have hsr : shouldRetry (.httpEx he) = true := by
      simp only [shouldRetry]
      rcases hretry with h | ⟨h1, h2⟩
      · simp [beq_iff_eq, h]
      · simp [h1, h2]
    exact retry_occurs client transport jsonParse method url data options _ n rd
      h0 hsr hn

/-- Witness for C2: a 404 failure stops after one attempt with budget 3,
while a 500 failure with budget 3 performs a second attempt. -/
theorem C2_retry_iff_retryable_and_budget_witness :
    (executeRequestWithRetries demoClient transport404 noJson 0 "GET" "/x" none
        none 3 5
      = ([.attemptEv (attemptCallOf demoClient "GET" "/x" none none)],
         .error (.httpEx ⟨"Request failed with status 404", 404⟩))) ∧
    2 ≤ countAttempts (executeRequestWithRetries demoClient transport500 noJson 0
      "GET" "/x" none none 3 5).1 :=
  ⟨(C2_retry_iff_retryable_and_budget demoClient transport404 noJson "GET" "/x"
      none none ⟨"Request failed with status 404", 404⟩ 3 5 (by rfl)).1
      (Or.inl (by decide)),
   (C2_retry_iff_retryable_and_budget demoClient transport500 noJson "GET" "/x"
      none none ⟨"Request failed with status 500", 500⟩ 3 5 (by rfl)).2
      (by decide) (by decide)⟩

/-- C3: a response status outside `[200, 300)` raises a failure with that
status and message `Request failed with status {status}`, and the body is
not decoded: the outcome is the same whatever the body and the parser. -/
theorem C3_non2xx_raises_without_decoding (client : HttpClient)
    (method url : String) (data : Option JsVal)
    (options : Option HttpRequestOptions) (status : Nat)
    (hs : List (String × String)) (body : String)
    (jsonParse : String → Except String JsVal)
    (hbad : ¬(200 ≤ status ∧ status < 300)) :
    (executeRequest client method url data options (.resp status hs body)
        jsonParse).2
      = .error (.httpEx ⟨s!"Request failed with status {status}", status⟩) ∧
    ∀ (body2 : String) (p2 : String → Except String JsVal),
      executeRequest client method url data options (.resp status hs body2) p2
        = executeRequest client method url data options (.resp status hs body)
            jsonParse := by
  have hok : statusOk status = false := by
    by_contra h
    simp only [Bool.not_eq_false, statusOk, Bool.and_eq_true,
      decide_eq_true_eq] at h
    exact hbad h
  constructor
  · simp [executeRequest, handleResponse, hok, Except.mapError, catchClause]
  · intro body2 p2
    simp [executeRequest, handleResponse, hok, Except.mapError, catchClause]

/-- Witness for C3 at status 404. -/
theorem C3_non2xx_raises_without_decoding_witness :
    (executeRequest demoClient "GET" "/x" none none
        (.resp 404 [] "a body") noJson).2
      = .error (.httpEx ⟨s!"Request failed with status 404", 404⟩) ∧
    ∀ (body2 : String) (p2 : String → Except String JsVal),
      executeRequest demoClient "GET" "/x" none none (.resp 404 [] body2) p2
        = executeRequest demoClient "GET" "/x" none none (.resp 404 [] "a body")
            noJson :=
  C3_non2xx_raises_without_decoding demoClient "GET" "/x" none none 404 []
    "a body" noJson (by decide)

/-- C7: an attempt aborted by the timeout signal raises
`RequestFailure{0, "Request timeout"}`; any other thrown transport
`Error` raises `RequestFailure{0, its own message}`; both carry status 0
and differ only in the message. -/
theorem C7_transport_failures_status_zero (client : HttpClient)
    (method url : String) (data : Option JsVal)
    (options : Option HttpRequestOptions)
    (jsonParse : String → Except String JsVal) :
    (executeRequest client method url data options .aborted jsonParse).2
      = .error (.httpEx ⟨"Request timeout", 0⟩) ∧
    ∀ m : String,
      (executeRequest client method url data options (.failed (some m))
          jsonParse).2
        = .error (.httpEx ⟨m, 0⟩) :=
  ⟨rfl, fun _ => rfl⟩

theorem statusOk_of_2xx (status : Nat) (h : 200 ≤ status ∧ status < 300) :
    statusOk status = true := by
  simp only [statusOk, Bool.and_eq_true, decide_eq_true_eq]
  exact h

/-- A 2xx response whose content type selects the JSON decoder and whose
body the parser rejects settles as `HttpError(parser message, 0)`: the
parse exception goes through the generic branch of the catch clause. -/
theorem executeRequest_json_parse_error (client : HttpClient)
    (method url : String) (data : Option JsVal)
    (options : Option HttpRequestOptions) (status : Nat)
    (hs : List (String × String)) (body : String)
    (jsonParse : String → Except String JsVal) (msg : String)
    (hok : 200 ≤ status ∧ status < 300)
    (hct : decodeDispatch (getHeader hs "content-type") = .jsonKind)
    (hparse : jsonParse body = .error msg) :
    (executeRequest client method url data options (.resp status hs body)
        jsonParse).2
      = .error (.httpEx ⟨msg, 0⟩) := by
  simp [executeRequest, handleResponse, statusOk_of_2xx status hok, hct, hparse,
    Except.mapError, catchClause]

/-- C4 (amended): when JSON decoding of a 2xx body throws, the caller
receives a `RequestFailure` with status 0 carrying the parse message —
never the raw decode exception. -/
theorem C4_decode_error_wrapped (client : HttpClient) (method url : String)
    (data : Option JsVal) (options : Option HttpRequestOptions) (status : Nat)
    (hs : List (String × String)) (body : String)
    (jsonParse : String → Except String JsVal) (msg : String)
    (hok : 200 ≤ status ∧ status < 300)
    (hct : decodeDispatch (getHeader hs "content-type") = .jsonKind)
    (hparse : jsonParse body = .error msg) :
    (executeRequest client method url data options (.resp status hs body)
        jsonParse).2
      = .error (.httpEx ⟨msg, 0⟩) ∧
    (executeRequest client method url data options (.resp status hs body)
        jsonParse).2
      ≠ .error (.rawEx msg) := by
  have h := executeRequest_json_parse_error client method url data options
    status hs body jsonParse msg hok hct hparse
  exact ⟨h, by rw [h]; simp⟩

/-- Witness for the amended C4 on a malformed JSON body. -/
theorem C4_decode_error_wrapped_witness :
    (executeRequest demoClient "GET" "/x" none none
        (.resp 200 [("content-type", "application/json")] "not json")
        (fun _ => .error "Unexpected token")).2
      = .error (.httpEx ⟨"Unexpected token", 0⟩) ∧
    (executeRequest demoClient "GET" "/x" none none
        (.resp 200 [("content-type", "application/json")] "not json")
        (fun _ => .error "Unexpected token")).2
      ≠ .error (.rawEx "Unexpected token") :=
  C4_decode_error_wrapped demoClient "GET" "/x" none none 200
    [("content-type", "application/json")] "not json"
    (fun _ => .error "Unexpected token") "Unexpected token"
    (by decide) (by decide) rfl

/-- Counterexample to C4 as stated: at this concrete input the decode
step produced a raw parse exception with message "Unexpected token", yet
the caller receives a `RequestFailure` (an `HttpError` with status 0),
not that exception. -/
theorem C4_counterexample :
    (executeRequest demoClient "GET" "/x" none none
        (.resp 200 [("content-type", "application/json")] "not json")
        (fun _ => .error "Unexpected token")).2
      = .error (.httpEx ⟨"Unexpected token", 0⟩) ∧
    (executeRequest demoClient "GET" "/x" none none
        (.resp 200 [("content-type", "application/json")] "not json")
        (fun _ => .error "Unexpected token")).2
      ≠ .error (.rawEx "Unexpected token") := by
  have h : (executeRequest demoClient "GET" "/x" none none
      (.resp 200 [("content-type", "application/json")] "not json")
      (fun _ => .error "Unexpected token")).2
      = .error (.httpEx ⟨"Unexpected token", 0⟩) := rfl
  exact ⟨h, by rw [h]; simp⟩

/-- C10: a 2xx response whose JSON body fails to parse settles as a
`RequestFailure` with status 0 carrying the parser's message; status 0 is
retryable, so with a positive budget a second attempt is made, exactly as
for a transport failure. -/
theorem C10_parse_failure_is_retried (client : HttpClient)
    (transport : Nat → FetchOutcome) (jsonParse : String → Except String JsVal)
    (method url : String) (data : Option JsVal)
    (options : Option HttpRequestOptions) (status : Nat)
    (hs : List (String × String)) (body msg : String) (n rd : Nat)
    (ht0 : transport 0 = .resp status hs body)
    (hok : 200 ≤ status ∧ status < 300)
    (hct : decodeDispatch (getHeader hs "content-type") = .jsonKind)
    (hparse : jsonParse body = .error msg)
    (hn : 0 < n) :
    (executeRequest client method url data options (transport 0) jsonParse).2
      = .error (.httpEx ⟨msg, 0⟩) ∧
    shouldRetry (.httpEx ⟨msg, 0⟩) = true ∧
    2 ≤ countAttempts (executeRequestWithRetries client transport jsonParse 0
      method url data options n rd).1 := by
  have h0 : (executeRequest client method url data options (transport 0)
      jsonParse).2 = .error (.httpEx ⟨msg, 0⟩) := by
    rw [ht0]
    exact executeRequest_json_parse_error client method url data options status
      hs body jsonParse msg hok hct hparse
  exact ⟨h0, rfl,
    retry_occurs client transport jsonParse method url data options _ n rd h0
      rfl hn⟩

/-- Witness for C10 on a malformed JSON body with budget 1. -/
theorem C10_parse_failure_is_retried_witness :
    (executeRequest demoClient "GET" "/x" none none
        ((fun _ => FetchOutcome.resp 200 [("content-type", "application/json")]
          "not json") 0) noJson).2
      = .error (.httpEx ⟨"Unexpected token", 0⟩) ∧
    shouldRetry (.httpEx ⟨"Unexpected token", 0⟩) = true ∧
    2 ≤ countAttempts (executeRequestWithRetries demoClient
      (fun _ => FetchOutcome.resp 200 [("content-type", "application/json")]
        "not json") noJson 0 "GET" "/x" none none 1 0).1 :=
  C10_parse_failure_is_retried demoClient
    (fun _ => FetchOutcome.resp 200 [("content-type", "application/json")]
      "not json") noJson "GET" "/x" none none 200
    [("content-type", "application/json")] "not json" "Unexpected token" 1 0
    rfl (by decide) (by decide) rfl (by decide)

/-- C6 (amended): decoding of a 2xx body dispatches on the content-type
by substring tests in order: a type containing `application/json` is
parsed as JSON; otherwise a type containing `text/` is decoded as text;
everything else, an absent content-type header included, is an opaque
binary payload. -/
theorem C6_content_type_dispatch (client : HttpClient) (method url : String)
    (data : Option JsVal) (options : Option HttpRequestOptions) (status : Nat)
    (hs : List (String × String)) (body : String)
    (jsonParse : String → Except String JsVal)
    (hok : 200 ≤ status ∧ status < 300) :
    (∀ t v, getHeader hs "content-type" = some t →
      listHasSub t.data "application/json".data = true →
      jsonParse body = .ok v →
      (executeRequest client method url data options (.resp status hs body)
          jsonParse).2
        = .ok ⟨.jsonData v, status, hs, true⟩) ∧
    (∀ t, getHeader hs "content-type" = some t →
      listHasSub t.data "application/json".data = false →
      listHasSub t.data "text/".data = true →
      (executeRequest client method url data options (.resp status hs body)
          jsonParse).2
        = .ok ⟨.textData body, status, hs, true⟩) ∧
    (getHeader hs "content-type" = none →
      (executeRequest client method url data options (.resp status hs body)
          jsonParse).2
        = .ok ⟨.blobData body, status, hs, true⟩) ∧
    (∀ t, getHeader hs "content-type" = some t →
      listHasSub t.data "application/json".data = false →
      listHasSub t.data "text/".data = false →
      (executeRequest client method url data options (.resp status hs body)
          jsonParse).2
        = .ok ⟨.blobData body, status, hs, true⟩) := by
  have hsok := statusOk_of_2xx status hok
  refine ⟨?_, ?_, ?_, ?_⟩
  · intro t v ht hsub hparse
    have hd : decodeDispatch (getHeader hs "content-type") = .jsonKind := by
      rw [ht]; simp [decodeDispatch, hsub]
    simp [executeRequest, handleResponse, hsok, hd, hparse, Except.mapError]
  · intro t ht hsub1 hsub2
    have hd : decodeDispatch (getHeader hs "content-type") = .textKind := by
      rw [ht]; simp [decodeDispatch, hsub1, hsub2]
    simp [executeRequest, handleResponse, hsok, hd, Except.mapError]
  · intro ht
    have hd : decodeDispatch (getHeader hs "content-type") = .blobKind := by
      rw [ht]; simp [decodeDispatch]
    simp [executeRequest, handleResponse, hsok, hd, Except.mapError]
  · intro t ht hsub1 hsub2
    have hd : decodeDispatch (getHeader hs "content-type") = .blobKind := by
      rw [ht]; simp [decodeDispatch, hsub1, hsub2]
    simp [executeRequest, handleResponse, hsok, hd, Except.mapError]

/-- Witness for the amended C6 on the three canonical content types. -/
theorem C6_content_type_dispatch_witness :
    (executeRequest demoClient "GET" "/x" none none
        (.resp 200 [("content-type", "application/json")] "body")
        (fun _ => .ok (JsVal.vStr "1"))).2
      = .ok ⟨.jsonData (JsVal.vStr "1"), 200,
          [("content-type", "application/json")], true⟩ ∧
    (executeRequest demoClient "GET" "/x" none none
        (.resp 200 [("content-type", "text/plain")] "hi")
        (fun _ => .ok (JsVal.vStr "1"))).2
      = .ok ⟨.textData "hi", 200, [("content-type", "text/plain")], true⟩ ∧
    (executeRequest demoClient "GET" "/x" none none (.resp 200 [] "raw")
        (fun _ => .ok (JsVal.vStr "1"))).2
      = .ok ⟨.blobData "raw", 200, [], true⟩ :=
  ⟨(C6_content_type_dispatch demoClient "GET" "/x" none none 200
      [("content-type", "application/json")] "body"
      (fun _ => .ok (JsVal.vStr "1")) (by decide)).1
      "application/json" (JsVal.vStr "1") rfl (by decide) rfl,
   (C6_content_type_dispatch demoClient "GET" "/x" none none 200
      [("content-type", "text/plain")] "hi"
      (fun _ => .ok (JsVal.vStr "1")) (by decide)).2.1
      "text/plain" rfl (by decide) (by decide),
   (C6_content_type_dispatch demoClient "GET" "/x" none none 200 [] "raw"
      (fun _ => .ok (JsVal.vStr "1")) (by decide)).2.2.1 rfl⟩

/-- Counterexample to C6 as stated: `text/application/json` is a
`text/*` content type, yet the code parses the body as JSON (the
`application/json` substring test runs first), not as text. -/
theorem C6_counterexample :
    listStarts "text/application/json".data "text/".data = true ∧
    (executeRequest demoClient "GET" "/x" none none
        (.resp 200 [("content-type", "text/application/json")] "hi")
        (fun _ => .ok JsVal.vNull)).2
      = .ok ⟨.jsonData JsVal.vNull, 200,
          [("content-type", "text/application/json")], true⟩ ∧
    (executeRequest demoClient "GET" "/x" none none
        (.resp 200 [("content-type", "text/application/json")] "hi")
        (fun _ => .ok JsVal.vNull)).2
      ≠ .ok ⟨.textData "hi", 200,
          [("content-type", "text/application/json")], true⟩ := by
  have h : (executeRequest demoClient "GET" "/x" none none
      (.resp 200 [("content-type", "text/application/json")] "hi")
      (fun _ => .ok JsVal.vNull)).2
      = .ok ⟨.jsonData JsVal.vNull, 200,
          [("content-type", "text/application/json")], true⟩ := rfl
  exact ⟨by decide, h, by rw [h]; simp⟩

/-- The retry loop never touches the loading observable: its trace holds
only attempt and delay events. -/
theorem no_loading_in_retries (client : HttpClient)
    (transport : Nat → FetchOutcome) (jsonParse : String → Except String JsVal)
    (method url : String) (data : Option JsVal)
    (options : Option HttpRequestOptions) :
    ∀ k idx rd, ∀ e ∈ (executeRequestWithRetries client transport jsonParse idx
      method url data options k rd).1, isLoadingEvent e = false := by
  intro k
  induction k with
  | zero =>
    intro idx rd e he
    rw [executeRequestWithRetries] at he
    rcases hres : (executeRequest client method url data options (transport idx)
        jsonParse).2 with er | r
    · simp only [hres, List.mem_singleton] at he
      subst he; rfl
    · simp only [hres, List.mem_singleton] at he
      subst he; rfl
  | succ m ih =>
    intro idx rd e he
    rw [executeRequestWithRetries] at he
    rcases hres : (executeRequest client method url data options (transport idx)
        jsonParse).2 with er | r
    · by_cases hr : shouldRetry er = true
      · simp only [hres, hr, Bool.not_true, Bool.false_eq_true, if_false,
          List.mem_cons] at he
        rcases he with h | h | h
        · subst h; rfl
        · subst h; rfl
        · exact ih (idx + 1) rd e h
      · have hr2 : shouldRetry er = false := by
          simpa using hr
        simp only [hres, hr2, Bool.not_false, if_true, List.mem_singleton] at he
        subst he; rfl
    · simp only [hres, List.mem_singleton] at he
      subst he; rfl

/-- C9: one `request` call sets the loading flag to true first, runs the
whole retry sequence without touching it, and sets it back to false as
the very last action: a single visible toggle per call, whatever the
transport does and however many attempts are made. -/
theorem C9_loading_toggles_once_per_call (client : HttpClient)
    (transport : Nat → FetchOutcome) (jsonParse : String → Except String JsVal)
    (method url : String) (data : Option JsVal)
    (options : Option HttpRequestOptions) :
    ∃ es, (request client transport jsonParse method url data options).1
        = TraceEvent.loadingSet true :: es ++ [TraceEvent.loadingSet false] ∧
      (∀ e ∈ es, isLoadingEvent e = false) ∧
      (request client transport jsonParse method url data options).1.countP
        isLoadingEvent = 2 := by
  refine ⟨(executeRequestWithRetries client transport jsonParse 0 method url
    data (some (spreadOptions client.defaultOptions (options.getD emptyOptions)))
    ((spreadOptions client.defaultOptions (options.getD emptyOptions)).retries.getD 1)
    ((spreadOptions client.defaultOptions
      (options.getD emptyOptions)).retryDelay.getD 1000)).1, rfl, ?_, ?_⟩
  · exact no_loading_in_retries client transport jsonParse method url data _ _ 0 _
  · have hz : (executeRequestWithRetries client transport jsonParse 0 method url
        data (some (spreadOptions client.defaultOptions (options.getD emptyOptions)))
        ((spreadOptions client.defaultOptions (options.getD emptyOptions)).retries.getD 1)
        ((spreadOptions client.defaultOptions
          (options.getD emptyOptions)).retryDelay.getD 1000)).1.countP
        isLoadingEvent = 0 := by
      rw [List.countP_eq_zero]
      intro e he
      have := no_loading_in_retries client transport jsonParse method url data _
        _ 0 _ e he
      simpa using this
    simp [request, List.countP_cons, List.countP_append, hz, isLoadingEvent]

theorem getHeader_nil (q : String) : getHeader [] q = none := rfl

theorem getHeader_cons (p : String × String) (t : List (String × String))
    (q : String) :
    getHeader (p :: t) q = if p.1 = q then some p.2 else getHeader t q := by
  by_cases h : p.1 = q <;> simp [getHeader, List.find?_cons, h]

theorem getHeader_setKey (l : List (String × String)) (k v q : String) :
    getHeader (setKey l k v) q = if q = k then some v else getHeader l q := by
  induction l with
  | nil =>
    rw [show setKey [] k v = [(k, v)] from rfl, getHeader_cons, getHeader_nil]
    by_cases h : q = k
    · simp [h]
    · have h2 : ¬(k = q) := fun hh => h hh.symm
      simp [h, h2]
  | cons p t ih =>
    by_cases hp : p.1 = k
    · rw [show setKey (p :: t) k v = if p.1 = k then (k, v) :: t
          else p :: setKey t k v from rfl, if_pos hp, getHeader_cons,
        getHeader_cons]
      by_cases hq : q = k
      · simp [hq]
      · have h2 : ¬(k = q) := fun hh => hq hh.symm
        have hpq : ¬(p.1 = q) := by rw [hp]; exact h2
        simp [hq, h2, hpq]
    · rw [show setKey (p :: t) k v = if p.1 = k then (k, v) :: t
          else p :: setKey t k v from rfl, if_neg hp, getHeader_cons, ih,
        getHeader_cons]
      by_cases hq : q = k
      · subst hq
        simp [hp]
      · simp [hq]

theorem getHeader_append (a b : List (String × String)) (q : String) :
    getHeader (a ++ b) q = optOr (getHeader a q) (getHeader b q) := by
  induction a with
  | nil => simp [getHeader_nil, optOr]
  | cons p t ih =>
    rw [List.cons_append, getHeader_cons, getHeader_cons]
    by_cases h : p.1 = q
    · simp [h, optOr]
    · simp [h, ih]

theorem getHeader_spreadInto (l : List (String × String))
    (base : List (String × String)) (q : String) :
    getHeader (spreadInto base l) q
      = optOr (getHeader l.reverse q) (getHeader base q) := by
  induction l generalizing base with
  | nil => simp [spreadInto, getHeader_nil, optOr]
  | cons p t ih =>
    have hstep : spreadInto base (p :: t) = spreadInto (setKey base p.1 p.2) t :=
      rfl
    rw [hstep, ih, getHeader_setKey, List.reverse_cons, getHeader_append,
      getHeader_cons, getHeader_nil]
    cases hrev : getHeader t.reverse q with
    | some w => simp [optOr]
    | none =>
      by_cases h : p.1 = q
      · have h2 : q = p.1 := h.symm
        rw [if_pos h2, if_pos h]
        simp [optOr]
      · have h2 : ¬(q = p.1) := fun hh => h hh.symm
        rw [if_neg h2, if_neg h]
        simp [optOr]

theorem getHeader_reverse_none (l : List (String × String)) (q : String)
    (h : getHeader l q = none) : getHeader l.reverse q = none := by
  have hf : List.find? (fun p => decide (p.1 = q)) l = none := by
    rcases hx : List.find? (fun p => decide (p.1 = q)) l with _ | p
    · exact hx
    · exfalso
      simp only [getHeader] at h
      erw [hx] at h
      simp at h
  rw [List.find?_eq_none] at hf
  have hf2 : List.find? (fun p => decide (p.1 = q)) l.reverse = none := by
    rw [List.find?_eq_none]
    intro x hx
    exact hf x (by simpa using hx)
  simp only [getHeader]
  erw [hf2]
  rfl

/-- Counterexample to C8 as stated: the body argument `0` is present,
yet `data ? JSON.stringify(data) : undefined` drops every falsy value, so
no payload at all is sent for it. -/
theorem C8_counterexample :
    (executeRequest demoClient "POST" "/x" (some (JsVal.vNum 0))
        (some demoClient.defaultOptions) (.resp 200 [] "")
        (fun _ => .ok JsVal.vNull)).1.body = none ∧
    (none : Option String) ≠ some (jsonStringify (JsVal.vNum 0)) := by
  exact ⟨rfl, by simp⟩

/-- C8 (amended): a present and truthy body argument is sent as its JSON
serialization, and the sent headers carry `Content-Type:
application/json` from the constructor defaults unless the caller's
headers override that key (caller keys override default keys one by
one, the last write winning as in a JS object spread). -/
theorem C8_truthy_body_sent_as_json (baseUrl method url : String) (v : JsVal)
    (hs : List (String × String)) (t r d : Option Nat) (fo : FetchOutcome)
    (jsonParse : String → Except String JsVal)
    (hv : jsTruthy v = true) :
    (executeRequest (mkClient baseUrl none) method url (some v)
        (some ⟨some hs, t, r, d⟩) fo jsonParse).1.body
      = some (jsonStringify v) ∧
    (getHeader hs "Content-Type" = none →
      getHeader (executeRequest (mkClient baseUrl none) method url (some v)
        (some ⟨some hs, t, r, d⟩) fo jsonParse).1.headers "Content-Type"
      = some "application/json") ∧
    (∀ w, getHeader hs.reverse "Content-Type" = some w →
      getHeader (executeRequest (mkClient baseUrl none) method url (some v)
        (some ⟨some hs, t, r, d⟩) fo jsonParse).1.headers "Content-Type"
      = some w) := by
  have hheaders : (executeRequest (mkClient baseUrl none) method url (some v)
      (some ⟨some hs, t, r, d⟩) fo jsonParse).1.headers
      = spreadInto [("Content-Type", "application/json"),
          ("Accept", "application/json")] hs := rfl
  refine ⟨?_, ?_, ?_⟩
  · show (match some v with
      | some v => if jsTruthy v then some (jsonStringify v) else none
      | none => none) = some (jsonStringify v)
    simp [hv]
  · intro hnone
    rw [hheaders, getHeader_spreadInto, getHeader_reverse_none hs _ hnone]
    simp [optOr, getHeader_cons]
  · intro w hw
    rw [hheaders, getHeader_spreadInto, hw]
    simp [optOr]

/-- Witness for the amended C8: a truthy string body is serialized, the
default Content-Type applies when the caller adds an unrelated header,
and a caller-supplied Content-Type wins. -/
theorem C8_truthy_body_sent_as_json_witness :
    (executeRequest (mkClient "https://api.example.com" none) "POST" "/x"
        (some (JsVal.vStr "hello")) (some ⟨some [("X-Custom", "1")], none,
          none, none⟩) (.resp 200 [] "") noJson).1.body
      = some (jsonStringify (JsVal.vStr "hello")) ∧
    getHeader (executeRequest (mkClient "https://api.example.com" none) "POST"
        "/x" (some (JsVal.vStr "hello")) (some ⟨some [("X-Custom", "1")], none,
          none, none⟩) (.resp 200 [] "") noJson).1.headers "Content-Type"
      = some "application/json" ∧
    getHeader (executeRequest (mkClient "https://api.example.com" none) "POST"
        "/x" (some (JsVal.vStr "hello"))
        (some ⟨some [("Content-Type", "text/plain")], none, none, none⟩)
        (.resp 200 [] "") noJson).1.headers "Content-Type"
      = some "text/plain" :=
  ⟨(C8_truthy_body_sent_as_json "https://api.example.com" "POST" "/x"
      (JsVal.vStr "hello") [("X-Custom", "1")] none none none (.resp 200 [] "")
      noJson (by decide)).1,
   (C8_truthy_body_sent_as_json "https://api.example.com" "POST" "/x"
      (JsVal.vStr "hello") [("X-Custom", "1")] none none none (.resp 200 [] "")
      noJson (by decide)).2.1 (by decide),
   (C8_truthy_body_sent_as_json "https://api.example.com" "POST" "/x"
      (JsVal.vStr "hello") [("Content-Type", "text/plain")] none none none
      (.resp 200 [] "") noJson (by decide)).2.2 "text/plain" (by decide)⟩

end HttpModel
